import Mathlib

/-!
Verification development for the hyphertext agent backend.

The Python sources are shallowly embedded below: Python `str` values become
Lean `String` (with `List Char` as the underlying character sequence),
dictionaries with `.get` defaults become structures with `Option` fields,
the persistence layer (Supabase calls) becomes an explicit event trace, and
the LLM backends become oracles supplied as function-typed inputs.
-/

set_option maxRecDepth 1000000

namespace Hyphertext

/- ── agents/tools/html_tools.py and agents.py: execute_str_replace ──────────
   Python:
     def execute_str_replace(current_html, old_str, new_str):
         if old_str not in current_html:
             return current_html, False
         updated = current_html.replace(old_str, new_str, 1)
         return updated, True
   `old in s` is substring containment (the empty string is contained in
   every string); `s.replace(old, new, 1)` replaces only the leftmost
   occurrence, and inserts `new` at position 0 when `old` is empty. -/

/-- Python substring containment `old in s`, over character lists: some
position of `s` (including the final position) starts with `old`. -/
def substrIn (old : List Char) : List Char → Bool
  | [] => old.isPrefixOf []
  | c :: rest => old.isPrefixOf (c :: rest) || substrIn old rest

/-- Python `s.replace(old, new, 1)` over character lists: replace the
leftmost occurrence of `old` by `new`; return `s` unchanged when `old` does
not occur. -/
def replaceFirst (old new : List Char) : List Char → List Char
  | [] => if old.isPrefixOf [] then new ++ List.drop old.length [] else []
  | c :: rest =>
    if old.isPrefixOf (c :: rest) then new ++ List.drop old.length (c :: rest)
    else c :: replaceFirst old new rest

/-- Python `sub in s` on strings. -/
def strContains (s sub : String) : Bool := substrIn sub.data s.data

/-- Embedding of `execute_str_replace` (identical in
`agents/tools/html_tools.py` and `agents.py`): the returned `Bool` is the
success flag; `false` is the NotFound signal. -/
def execute_str_replace (current_html old_str new_str : String) : String × Bool :=
  if strContains current_html old_str then
    (String.mk (replaceFirst old_str.data new_str.data current_html.data), true)
  else
    (current_html, false)

/-- All positions of `s` (0 up to and including `s.length`) at which `old`
starts; used to state "the target substring occurs exactly once". -/
def occurrencePositions (old s : List Char) : List Nat :=
  (List.range (s.length + 1)).filter (fun i => old.isPrefixOf (s.drop i))

/-- Number of positions of `s` at which `old` occurs. -/
def occCount (old s : List Char) : Nat := (occurrencePositions old s).length

/- ── boilerplate.py ──────────────────────────────────────────────────────── -/

/-- The fixed placeholder document `INITIAL_BOILERPLATE` from
`boilerplate.py` (braces and apostrophes written as hex escapes). -/
def INITIAL_BOILERPLATE : String :=
  "<!DOCTYPE html>\n<html lang=\"en\">\n<head>\n  <meta charset=\"UTF-8\" />\n  <meta name=\"viewport\" content=\"width=device-width, initial-scale=1.0\" />\n  <title>Untitled</title>\n  <style>\n    * \x7b box-sizing: border-box; margin: 0; padding: 0; \x7d\n    body \x7b\n      min-height: 100vh;\n      display: flex;\n      align-items: center;\n      justify-content: center;\n      background: #f8f7f4;\n      font-family: \x27DM Sans\x27, \x27Helvetica Neue\x27, sans-serif;\n    \x7d\n    .placeholder \x7b text-align: center; color: #bbb; \x7d\n    .placeholder p \x7b font-size: 0.85rem; font-family: monospace; letter-spacing: 0.04em; \x7d\n    .placeholder span \x7b display: block; font-size: 1.4rem; margin-bottom: 0.75rem; opacity: 0.4; \x7d\n  </style>\n</head>\n<body>\n  <div class=\"placeholder\">\n    <span>&#10022;</span>\n    <p>describe what you want to build</p>\n  </div>\n</body>\n</html>"

/-- The sentinel phrase whose presence marks a still-blank document. -/
def sentinelPhrase : String := "describe what you want to build"

/- ── config.py ───────────────────────────────────────────────────────────── -/

def GROQ_MODELS : List (String × String) :=
  [("groq/llama-3.3-70b", "llama-3.3-70b-versatile"),
   ("groq/llama-3.1-8b", "llama-3.1-8b-instant")]

def CLAUDE_MODELS : List (String × String) :=
  [("claude/claude-sonnet-4-5", "claude-sonnet-4-5"),
   ("claude/claude-haiku-4-5", "claude-haiku-4-5")]

def ALL_MODELS : List String := GROQ_MODELS.map Prod.fst ++ CLAUDE_MODELS.map Prod.fst

def DEFAULT_MODEL : String := "groq/llama-3.3-70b"

/- ── main.py: the HTTP boundary ──────────────────────────────────────────── -/

/-- The request body accepted by `/agent/run` (`AgentRunRequest` in
`main.py`): exactly message_id, page_id and content. -/
structure AgentRunRequest where
  message_id : String
  page_id : String
  content : String
deriving DecidableEq

/-- The declared field names of `AgentRunRequest`. -/
def agentRunRequestFields : List String := ["message_id", "page_id", "content"]

/-- The routes registered on the FastAPI app in `main.py`: the health
endpoint and the single agent endpoint. -/
def appRoutes : List (String × String) := [("GET", "/"), ("POST", "/agent/run")]

/-- Body returned by the health endpoint. -/
def healthBody : List (String × String) := [("status", "ok"), ("service", "hyphertext-agent")]

/-- Which background agent `/agent/run` dispatches. -/
inductive AgentKind
  | create
  | edit
deriving DecidableEq

/-- The page row as consulted by `main.py` (only `html_content` is read). -/
structure PageRecord where
  html_content : String
deriving DecidableEq

/-- The `is_first_prompt` test computed inline in the `/agent/run` handler:
empty document, exact boilerplate, or sentinel-containing document. -/
def is_first_prompt (current_html : String) : Bool :=
  current_html == "" || current_html == INITIAL_BOILERPLATE
    || strContains current_html sentinelPhrase

/-- Result of one `/agent/run` call, together with which agent was spawned. -/
inductive HttpOutcome where
  | ok (body : List (String × String)) (dispatched : AgentKind)
  | httpError (status : Nat) (detail : String)
deriving DecidableEq

/-- Embedding of the `/agent/run` handler in `main.py`. `get_page` is imported
from a `db` module that is not part of the sources; following the handler
itself (`if not page`), it is modelled as a lookup returning `none` for a
missing page. The handler raises `HTTPException(404, "Page not found")` for a
missing page, but the enclosing `except Exception` clause catches that
exception too (FastAPI HTTPException subclasses Exception) and re-raises
`HTTPException(500, str(e))`, where `str` of an HTTPException renders as
"status: detail"; so the missing-page result observed by the client is a 500.
The asynchronous dispatch (`asyncio.create_task`) is modelled by returning
which agent was dispatched alongside the immediate response body. -/
def agent_run (get_page : String → Option PageRecord) (req : AgentRunRequest) : HttpOutcome :=
  match get_page req.page_id with
  | none => .httpError 500 "404: Page not found"
  | some page =>
    let first := is_first_prompt page.html_content
    .ok [("status", "accepted"), ("agent", if first then "create" else "edit")]
        (if first then .create else .edit)

/-- A concrete page table: one existing non-blank page `p1`. -/
def c8pages : String → Option PageRecord :=
  fun pid => if pid == "p1" then some ⟨"<h1>Existing page</h1>"⟩ else none

/- ── agents/orchestrator.py: plan parsing ────────────────────────────────── -/

/-- The planner's structured plan, a Python dict read with `.get` defaults:
every field the orchestrator consults is optional. Confidence is a rational
(the code only compares it against 0.6). -/
structure Plan where
  decision : Option String
  complexity : Option String
  confidence : Option ℚ
  needs_clarification : Option Bool
  clarification_question : Option String
  description : Option String
  changes : List String
  needs_web_search : Option Bool
  search_query : Option String
deriving DecidableEq

/-- The fixed fallback plan built in the except branch of `_parse_plan`. -/
def default_plan : Plan :=
  { decision := some "surgical_edit"
    complexity := some "simple"
    confidence := some (1 / 2)
    needs_clarification := some false
    clarification_question := none
    description := some "apply requested changes"
    changes := []
    needs_web_search := some false
    search_query := none }

/-- Outcome of Python `json.loads` on the cleaned planner output: a dict
(read into a `Plan` record), a successfully parsed non-dict JSON value
(number, list, string, bool, null), or a raised `JSONDecodeError`. -/
inductive JsonLoadOutcome where
  | obj (p : Plan)
  | nonObject
  | failure

/-- What `_parse_plan` hands back to the orchestrator: a dict plan, or the
non-dict value that `json.loads` produced (returned as-is by the Python
code, since only an exception reaches the except branch). -/
inductive PlanValue where
  | dict (p : Plan)
  | scalar
deriving DecidableEq

/-- Python `s.strip()`: whitespace removed from both ends. -/
def pyStrip (s : String) : String :=
  String.mk (((s.data.dropWhile Char.isWhitespace).reverse.dropWhile Char.isWhitespace).reverse)

/-- Python `s.startswith(p)`. -/
def startsWithStr (s p : String) : Bool := p.data.isPrefixOf s.data

/-- Worker for `splitLines`. -/
def splitLinesAux : List Char → List Char → List String
  | [], acc => [String.mk acc.reverse]
  | c :: rest, acc =>
    if c == '\n' then String.mk acc.reverse :: splitLinesAux rest []
    else splitLinesAux rest (c :: acc)

/-- Python `s.split("\n")`. -/
def splitLines (s : String) : List String := splitLinesAux s.data []

/-- Python `"\n".join(lines)`. -/
def joinLines : List String → String
  | [] => ""
  | [l] => l
  | l :: ls => l ++ "\n" ++ joinLines ls

/-- Python `s[:n]`. -/
def strTake (s : String) (n : Nat) : String := String.mk (s.data.take n)

/-- The code-fence stripping performed at the start of `_parse_plan`. -/
def stripCodeFences (raw : String) : String :=
  let cleaned := pyStrip raw
  if startsWithStr cleaned "```" then
    let lines := splitLines cleaned
    let lines := lines.filter (fun l => !(startsWithStr l "```"))
    joinLines lines
  else cleaned

/-- Embedding of `_parse_plan`: clean the raw output, run `json.loads`, and
return its value; only a raised exception produces the default plan. -/
def _parse_plan (jsonLoads : String → JsonLoadOutcome) (raw : String) : PlanValue :=
  match jsonLoads (stripCodeFences raw) with
  | .obj p => .dict p
  | .nonObject => .scalar
  | .failure => .dict default_plan

/- ── agents/orchestrator.py: data for the tool loop ──────────────────────── -/

/-- One entry of the page component map (`{id, selector, type, description}`). -/
structure Component where
  id : String
  selector : String
  type : String
  description : String
deriving DecidableEq

/-- One entry of the orchestrator's `changes_log`. -/
inductive ChangeEntry where
  | writeFullFile (summary : String) (success : Bool)
  | strReplace (old_str_preview : String) (success : Bool)
deriving DecidableEq

/-- One persistence call issued by the orchestrator or the edit agent, in
order of occurrence (the Supabase layer of `database.py`). An inserted
clarification thread always starts unresolved (`resolved=False`). -/
inductive Event where
  | msgStatus (status : String)
  | updateHtml (html : String)
  | updateSummaryAndMap (html_summary : String) (component_map : List Component)
  | snapshot (html : String)
  | assistantMsg (content : String) (message_type : String)
  | thinkingMsg
  | insertClar (question : String)
  | resolveClar (answer : String)
  | editHistory (complexity : String) (decision : String)
      (changes : List ChangeEntry) (clarification_asked : Bool) (success : Bool)
deriving DecidableEq

/-- A tool invocation as dispatched on `fn_name` in the loop; the fields are
the argument values after the code's `args.get(...)` defaults. A name
matching no branch of the dispatch is `unrecognized` and is skipped. -/
inductive ToolAction where
  | write_full_file (html : String) (summary : String)
      (html_summary : String) (component_map : List Component)
  | str_replace (old_str : String) (new_str : String)
  | ask_clarification (question : String)
  | web_search (query : String)
  | finish (summary : String)
  | unrecognized (name : String)
deriving DecidableEq

/-- A tool call as returned by the model router (`id` plus the call). -/
structure ToolCall where
  id : String
  action : ToolAction
deriving DecidableEq

/-- One model-router chat response inside the tool loop; a `None` content is
modelled as the empty string (both are falsy where the code tests them). -/
structure ModelResponse where
  content : String
  tool_calls : List ToolCall
deriving DecidableEq

/-- Terminal outcome of one request. -/
inductive Outcome where
  | completed (final_summary : String)
  | clarificationPending (question : String)
  | error
deriving DecidableEq

/-- The orchestrator's mutable state across the tool loop. `fedBack` holds
the tool-result turns appended to the running message list at the end of a
non-terminal turn. -/
structure LoopCtx where
  current_html : String
  changes_log : List ChangeEntry
  web_searches : List String
  clarification_asked : Bool
  final_summary : String
  events : List Event
  fedBack : List (String × String)
  plan : Plan
deriving DecidableEq

/-- Effect of executing one tool call: return out of the request (`halt`) or
continue with the next tool call of the same turn (`go`). -/
inductive StepRes where
  | halt (ctx : LoopCtx) (out : Outcome)
  | go (ctx : LoopCtx) (trs : List (String × String))
deriving DecidableEq

/-- The error text fed back for an empty `write_full_file`. -/
def emptyHtmlError : String :=
  "ERROR: html field is empty. You must provide complete HTML content."

/-- The error text fed back for a failed `str_replace` in the orchestrator. -/
def notFoundError : String :=
  "ERROR: old_str not found in the file. Check for exact whitespace and indentation match. Try a shorter, more unique substring."

/-- Embedding of the body of the orchestrator's per-tool-call dispatch
(`for tool_call in response["tool_calls"]`). -/
def execTool (searchFmt : String → String) (tc : ToolCall) (ctx : LoopCtx)
    (trs : List (String × String)) : StepRes :=
  match tc.action with
  | .write_full_file html summary new_html_summary new_component_map =>
    if html == "" then
      .go ctx (trs ++ [(tc.id, emptyHtmlError)])
    else
      let ev1 := ctx.events ++ [.updateHtml html]
      let ev2 := if new_html_summary == "" then ev1
                 else ev1 ++ [.updateSummaryAndMap new_html_summary new_component_map]
      let cl := ctx.changes_log ++ [.writeFullFile summary true]
      let ev3 := ev2 ++ [.snapshot html, .msgStatus "completed",
        .assistantMsg summary "chat",
        .editHistory (ctx.plan.complexity.getD "moderate") "full_rewrite" cl
          ctx.clarification_asked true]
      .halt { ctx with
                current_html := html
                changes_log := cl
                final_summary := summary
                events := ev3 }
            (.completed summary)
  | .str_replace old_str new_str =>
    let p := execute_str_replace ctx.current_html old_str new_str
    if p.2 then
      .go { ctx with
              current_html := p.1
              events := ctx.events ++ [.updateHtml p.1]
              changes_log := ctx.changes_log ++ [.strReplace (strTake old_str 80) true] }
          (trs ++ [(tc.id, "replaced successfully")])
    else
      .go { ctx with
              changes_log := ctx.changes_log ++ [.strReplace (strTake old_str 80) false] }
          (trs ++ [(tc.id, notFoundError)])
  | .ask_clarification question =>
    .halt { ctx with
              clarification_asked := true
              events := ctx.events ++ [.insertClar question, .msgStatus "completed",
                .assistantMsg question "clarification",
                .editHistory (ctx.plan.complexity.getD "simple") "clarification" [] true true] }
          (.clarificationPending question)
  | .web_search query =>
    .go { ctx with web_searches := ctx.web_searches ++ [query] }
        (trs ++ [(tc.id, searchFmt query)])
  | .finish summary =>
    .halt { ctx with
              final_summary := summary
              events := ctx.events ++ [.snapshot ctx.current_html, .msgStatus "completed",
                .assistantMsg summary "chat",
                .editHistory (ctx.plan.complexity.getD "simple") "surgical_edit"
                  ctx.changes_log ctx.clarification_asked true] }
          (.completed summary)
  | .unrecognized _ => .go ctx trs

/-- Result of processing the tool calls of one model turn. -/
inductive TurnRes where
  | terminal (ctx : LoopCtx) (out : Outcome)
  | next (ctx : LoopCtx) (trs : List (String × String))
deriving DecidableEq

/-- Processing of one turn's tool calls, strictly left to right; a `halt`
returns immediately and the remaining calls are discarded. -/
def processToolCalls (searchFmt : String → String) :
    List ToolCall → LoopCtx → List (String × String) → TurnRes
  | [], ctx, trs => .next ctx trs
  | tc :: rest, ctx, trs =>
    match execTool searchFmt tc ctx trs with
    | .halt ctx' out => .terminal ctx' out
    | .go ctx' trs' => processToolCalls searchFmt rest ctx' trs'

/-- How the tool loop ended. -/
inductive LoopExit where
  | terminal (out : Outcome)
  | noToolCalls
  | ceiling
deriving DecidableEq

/-- The bounded tool loop (`while iteration < max_iterations`), with the
model router as a per-iteration oracle. Returns the number of model calls
made, the final state, and how the loop ended. -/
def toolLoop (searchFmt : String → String) (oracle : Nat → ModelResponse) :
    Nat → Nat → LoopCtx → Nat × LoopCtx × LoopExit
  | 0, _, ctx => (0, ctx, .ceiling)
  | fuel + 1, iteration, ctx =>
    let response := oracle iteration
    match response.tool_calls with
    | [] =>
      (1, { ctx with final_summary :=
              if response.content == "" then "Changes applied." else response.content },
       .noToolCalls)
    | tc :: rest =>
      match processToolCalls searchFmt (tc :: rest) ctx [] with
      | .terminal ctx' out => (1, ctx', .terminal out)
      | .next ctx' trs =>
        let ctx2 := { ctx' with fedBack := ctx'.fedBack ++ trs }
        let r := toolLoop searchFmt oracle fuel (iteration + 1) ctx2
        (r.1 + 1, r.2)

/- ── agents/orchestrator.py: the request lifecycle ───────────────────────── -/

/-- Embedding of `_is_boilerplate`: empty, trim-equal to the fixed
placeholder, or containing the sentinel phrase. -/
def _is_boilerplate (html : String) : Bool :=
  if html == "" then true
  else if pyStrip html == pyStrip INITIAL_BOILERPLATE then true
  else if strContains html sentinelPhrase then true
  else false

/-- The page row fields the orchestrator reads and writes. -/
structure PageStore where
  html_content : String
  html_summary : String
  component_map : List Component
deriving DecidableEq

/-- Everything one `run_orchestrator` call consumes: page state, pending
clarification, the user text, the planner's raw output with `json.loads` as
an oracle, the tool-loop model as a per-iteration oracle, and the formatted
web-search results as an oracle. -/
structure RunInput where
  page : PageStore
  pendingClarification : Option String
  user_prompt : String
  planRaw : String
  jsonLoads : String → JsonLoadOutcome
  oracle : Nat → ModelResponse
  searchFmt : String → String

/-- Which control path ended the request. -/
inductive RunExit where
  | fatal
  | shortCircuit
  | loopTerminal
  | loopNoToolCalls
  | loopCeiling
deriving DecidableEq

/-- Observable result of one orchestrator run: the persistence trace, the
terminal outcome, the number of tool-loop model calls, the final document,
and the control path taken. -/
structure RunResult where
  events : List Event
  outcome : Outcome
  loopModelCalls : Nat
  finalHtml : String
  exitKind : RunExit
deriving DecidableEq

/-- The override applied right after planning: a boilerplate document forces
`full_rewrite` and suppresses the clarification need. -/
def planAfterOverride (p : Plan) (is_new_page : Bool) : Plan :=
  if is_new_page then
    { p with decision := some "full_rewrite", needs_clarification := some false }
  else p

/-- Python truthiness of `plan.get("needs_clarification")` (absent = falsy). -/
def pythonTruthy (o : Option Bool) : Bool := o.getD false

/-- Python truthiness of an optional string (absent or empty = falsy). -/
def truthyOptStr (o : Option String) : Bool :=
  match o with
  | some s => !(s == "")
  | none => false

/-- The clarification short-circuit condition of the orchestrator:
`plan.get("needs_clarification") and not is_new_page and
plan.get("confidence", 1.0) < 0.6`. -/
def shortCircuitCond (plan : Plan) (is_new_page : Bool) : Bool :=
  pythonTruthy plan.needs_clarification && !is_new_page
    && decide (plan.confidence.getD 1 < (3 / 5 : ℚ))

/-- Events emitted before planning: the processing status update, and the
resolution of a pending clarification thread with the new user text. -/
def preEvents (inp : RunInput) : List Event :=
  match inp.pendingClarification with
  | some _ => [.msgStatus "processing", .resolveClar inp.user_prompt]
  | none => [.msgStatus "processing"]

/-- The augmented prompt built when a pending clarification is resolved. -/
def effectiveUserPrompt (inp : RunInput) : String :=
  match inp.pendingClarification with
  | some q =>
    "Earlier you asked: " ++ q ++ "\nUser answered: " ++ inp.user_prompt
      ++ "\nNow proceed with the original task using this information."
  | none => inp.user_prompt

/-- The top-level except path: error status, apology reply, failed history
row; the document is left untouched. Reached in this embedding when the
parsed plan is a non-dict value (the `plan.get` attribute error). -/
def fatalResult (inp : RunInput) : RunResult :=
  { events := preEvents inp ++ [.msgStatus "error",
      .assistantMsg "Something went wrong. Please try again." "chat",
      .editHistory "unknown" "unknown" [] false false]
    outcome := .error
    loopModelCalls := 0
    finalHtml := inp.page.html_content
    exitKind := .fatal }

/-- The short-circuit result: clarification thread inserted (unresolved),
question posted as the reply, history row with decision "clarification";
no tool-loop model call is made. -/
def shortCircuitResult (inp : RunInput) (plan : Plan) : RunResult :=
  let question := plan.clarification_question.getD "Could you clarify what you would like?"
  { events := preEvents inp ++ [.insertClar question, .msgStatus "completed",
      .assistantMsg question "clarification",
      .editHistory (plan.complexity.getD "simple") "clarification" [] true true]
    outcome := .clarificationPending question
    loopModelCalls := 0
    finalHtml := inp.page.html_content
    exitKind := .shortCircuit }

/-- The loop's starting state: thinking message recorded, optional web
search performed (its query logged), document loaded, summary "Done.". -/
def initialLoopCtx (inp : RunInput) (plan : Plan) : LoopCtx :=
  { current_html := inp.page.html_content
    changes_log := []
    web_searches :=
      if pythonTruthy plan.needs_web_search && truthyOptStr plan.search_query then
        [plan.search_query.getD ""]
      else []
    clarification_asked := false
    final_summary := "Done."
    events := preEvents inp ++ [.thinkingMsg]
    fedBack := []
    plan := plan }

/-- The after-loop persistence performed when no terminal tool fired
("exited loop without hitting a return — save whatever we have"). -/
def wrapUpEvents (ctx : LoopCtx) : List Event :=
  [.snapshot ctx.current_html, .msgStatus "completed",
   .assistantMsg ctx.final_summary "chat",
   .editHistory (ctx.plan.complexity.getD "simple") (ctx.plan.decision.getD "surgical_edit")
     ctx.changes_log ctx.clarification_asked true]

/-- STEP 8 of `run_orchestrator`: the bounded tool loop with
`max_iterations = 15`, and the graceful wrap-up when no terminal tool
fired. -/
def loopPhaseResult (inp : RunInput) (plan : Plan) : RunResult :=
  let r := toolLoop inp.searchFmt inp.oracle 15 1 (initialLoopCtx inp plan)
  match r.2.2 with
  | .terminal out =>
    { events := r.2.1.events
      outcome := out
      loopModelCalls := r.1
      finalHtml := r.2.1.current_html
      exitKind := .loopTerminal }
  | .noToolCalls =>
    { events := r.2.1.events ++ wrapUpEvents r.2.1
      outcome := .completed r.2.1.final_summary
      loopModelCalls := r.1
      finalHtml := r.2.1.current_html
      exitKind := .loopNoToolCalls }
  | .ceiling =>
    { events := r.2.1.events ++ wrapUpEvents r.2.1
      outcome := .completed r.2.1.final_summary
      loopModelCalls := r.1
      finalHtml := r.2.1.current_html
      exitKind := .loopCeiling }

/-- Embedding of `run_orchestrator`: plan parse (with the non-dict crash
path), boilerplate override, clarification short-circuit, then the bounded
tool loop. -/
def run_orchestrator (inp : RunInput) : RunResult :=
  match _parse_plan inp.jsonLoads inp.planRaw with
  | .scalar => fatalResult inp
  | .dict p0 =>
    let is_new_page := _is_boilerplate inp.page.html_content
    let plan := planAfterOverride p0 is_new_page
    if shortCircuitCond plan is_new_page then
      shortCircuitResult inp plan
    else
      loopPhaseResult inp plan

/- ── agents.py: the simpler single-tool edit agent ───────────────────────── -/

/-- The edit agent's mutable state (`run_edit_agent` keeps no change log). -/
structure EditCtx where
  current_html : String
  final_summary : String
  events : List Event
  fedBack : List (String × String)
deriving DecidableEq

/-- The error text fed back for a failed `str_replace` in the edit agent. -/
def editNotFoundError : String :=
  "ERROR: old_str not found in file. Make sure it matches exactly."

/-- Step result inside the edit agent's turn. -/
inductive EStepRes where
  | halt (ctx : EditCtx)
  | go (ctx : EditCtx) (trs : List (String × String))
deriving DecidableEq

/-- The edit agent's per-tool-call dispatch: only `str_replace` and `finish`
have branches; any other name is skipped. -/
def execToolEdit (tc : ToolCall) (ctx : EditCtx)
    (trs : List (String × String)) : EStepRes :=
  match tc.action with
  | .str_replace old_str new_str =>
    let p := execute_str_replace ctx.current_html old_str new_str
    if p.2 then
      .go { ctx with
              current_html := p.1
              events := ctx.events ++ [.updateHtml p.1] }
          (trs ++ [(tc.id, "replaced successfully")])
    else
      .go ctx (trs ++ [(tc.id, editNotFoundError)])
  | .finish summary =>
    .halt { ctx with
              final_summary := summary
              events := ctx.events ++ [.snapshot ctx.current_html,
                .msgStatus "completed", .assistantMsg summary "chat"] }
  | _ => .go ctx trs

/-- Result of one edit-agent turn. -/
inductive ETurnRes where
  | terminal (ctx : EditCtx)
  | next (ctx : EditCtx) (trs : List (String × String))
deriving DecidableEq

/-- Left-to-right processing of one edit-agent turn. -/
def processToolCallsEdit : List ToolCall → EditCtx → List (String × String) → ETurnRes
  | [], ctx, trs => .next ctx trs
  | tc :: rest, ctx, trs =>
    match execToolEdit tc ctx trs with
    | .halt ctx' => .terminal ctx'
    | .go ctx' trs' => processToolCallsEdit rest ctx' trs'

/-- The edit agent's bounded loop (`max_iterations = 10`). -/
def editToolLoop (oracle : Nat → ModelResponse) :
    Nat → Nat → EditCtx → Nat × EditCtx × LoopExit
  | 0, _, ctx => (0, ctx, .ceiling)
  | fuel + 1, iteration, ctx =>
    let response := oracle iteration
    match response.tool_calls with
    | [] =>
      (1, { ctx with final_summary :=
              if response.content == "" then "Edits complete." else response.content },
       .noToolCalls)
    | tc :: rest =>
      match processToolCallsEdit (tc :: rest) ctx [] with
      | .terminal ctx' => (1, ctx', .terminal (.completed ctx'.final_summary))
      | .next ctx' trs =>
        let ctx2 := { ctx' with fedBack := ctx'.fedBack ++ trs }
        let r := editToolLoop oracle fuel (iteration + 1) ctx2
        (r.1 + 1, r.2)

/-- Input of one `run_edit_agent` call. -/
structure EditInput where
  page_html : String
  user_prompt : String
  oracle : Nat → ModelResponse

/-- Observable result of one edit-agent run. -/
structure EditResult where
  events : List Event
  outcome : Outcome
  loopModelCalls : Nat
  finalHtml : String
  exitKind : RunExit
deriving DecidableEq

/-- Embedding of `run_edit_agent` in `agents.py`: processing status, the
10-iteration loop, and the fall-through persistence (snapshot, completed
status, assistant reply — no edit-history row exists in this agent). -/
def run_edit_agent (inp : EditInput) : EditResult :=
  let ctx0 : EditCtx :=
    { current_html := inp.page_html
      final_summary := "Done."
      events := [.msgStatus "processing"]
      fedBack := [] }
  let r := editToolLoop inp.oracle 10 1 ctx0
  match r.2.2 with
  | .terminal out =>
    { events := r.2.1.events
      outcome := out
      loopModelCalls := r.1
      finalHtml := r.2.1.current_html
      exitKind := .loopTerminal }
  | .noToolCalls =>
    { events := r.2.1.events ++ [.snapshot r.2.1.current_html, .msgStatus "completed",
        .assistantMsg r.2.1.final_summary "chat"]
      outcome := .completed r.2.1.final_summary
      loopModelCalls := r.1
      finalHtml := r.2.1.current_html
      exitKind := .loopNoToolCalls }
  | .ceiling =>
    { events := r.2.1.events ++ [.snapshot r.2.1.current_html, .msgStatus "completed",
        .assistantMsg r.2.1.final_summary "chat"]
      outcome := .completed r.2.1.final_summary
      loopModelCalls := r.1
      finalHtml := r.2.1.current_html
      exitKind := .loopCeiling }

/-- A tool call that returns control out of the request the moment it
executes: a `write_full_file` carrying content, an `ask_clarification`, or a
`finish`. -/
def isTerminalCall (tc : ToolCall) : Bool :=
  match tc.action with
  | .write_full_file html _ _ _ => !(html == "")
  | .ask_clarification _ => true
  | .finish _ => true
  | _ => false

/- ── database.py: effect of the persistence events on the page row ───────── -/

/-- Effect of one persistence event on the page row (`update_page_html`
writes only `html_content`; `update_page_summary_and_map` writes only
`html_summary` and `component_map`; other calls touch other tables). -/
def applyEvent (store : PageStore) : Event → PageStore
  | .updateHtml h => { store with html_content := h }
  | .updateSummaryAndMap s m => { store with html_summary := s, component_map := m }
  | _ => store

/-- Effect of an event sequence on the page row. -/
def applyEvents (store : PageStore) (evs : List Event) : PageStore :=
  evs.foldl applyEvent store

/-- A loop state over a given document, with empty logs and the default
plan; used as a concrete starting point. -/
def baseCtx (html : String) : LoopCtx :=
  { current_html := html
    changes_log := []
    web_searches := []
    clarification_asked := false
    final_summary := "Done."
    events := []
    fedBack := []
    plan := default_plan }

/-- A page row with non-trivial previous summary and component map. -/
def c10store : PageStore :=
  { html_content := "<old>"
    html_summary := "old summary"
    component_map := [{ id := "hero", selector := "#hero", type := "section",
                        description := "top banner" }] }

/- ── C6: plan-parse fallback ─────────────────────────────────────────────── -/

/-- Python `json.loads` observed on the planner output "3": a bare digit is
valid JSON (the integer 3), so no exception is raised, but the value is not
an object. -/
def json_loads_scalar3 : String → JsonLoadOutcome :=
  fun s => if s == "3" then .nonObject else .failure

/-- A request whose planner returns the bare JSON scalar "3". -/
def c6input : RunInput :=
  { page := { html_content := "<h1>hi</h1>", html_summary := "", component_map := [] }
    pendingClarification := none
    user_prompt := "improve it"
    planRaw := "3"
    jsonLoads := json_loads_scalar3
    oracle := fun _ => { content := "All done", tool_calls := [] }
    searchFmt := fun _ => "" }

/- ── C2: blank placeholder handling ──────────────────────────────────────── -/

/-- A request against the blank placeholder (sentinel phrase present) whose
tool-loop model immediately asks a clarification question. -/
def cexC2input : RunInput :=
  { page := { html_content := "describe what you want to build",
              html_summary := "", component_map := [] }
    pendingClarification := none
    user_prompt := "make a page"
    planRaw := "whatever the planner replied"
    jsonLoads := fun _ => .failure
    oracle := fun _ =>
      { content := ""
        tool_calls := [⟨"t1", .ask_clarification "Which style do you want?"⟩] }
    searchFmt := fun _ => "no results" }

/-- A low-confidence clarification-requesting plan over a non-blank page. -/
def c5plan : Plan :=
  { decision := some "surgical_edit"
    complexity := some "simple"
    confidence := some (2 / 5)
    needs_clarification := some true
    clarification_question := some "Which section should I improve?"
    description := some "ambiguous request"
    changes := []
    needs_web_search := some false
    search_query := none }

/-- A request carrying `c5plan` against a non-blank document. -/
def c5input : RunInput :=
  { page := { html_content := "<h1>Welcome</h1>", html_summary := "", component_map := [] }
    pendingClarification := none
    user_prompt := "make it better"
    planRaw := "planner output"
    jsonLoads := fun _ => .obj c5plan
    oracle := fun _ => { content := "", tool_calls := [] }
    searchFmt := fun _ => "" }

/-- C4 counterexample: an edit-agent run that exhausts its ceiling of 10
iterations persists a snapshot and a completed status, but records no
edit-history row at all — `run_edit_agent` never writes edit history. -/
def c4editInput : EditInput :=
  { page_html := "<h1>a</h1>"
    user_prompt := "x"
    oracle := fun _ => { content := "", tool_calls := [⟨"t", .str_replace "zz" "q"⟩] } }

/-- An orchestrator request whose tool loop never fires a terminal tool:
every iteration attempts a failing `str_replace`. -/
def ceilInput : RunInput :=
  { page := { html_content := "<h1>hi</h1>", html_summary := "", component_map := [] }
    pendingClarification := none
    user_prompt := "tweak"
    planRaw := "x"
    jsonLoads := fun _ => .failure
    oracle := fun _ => { content := "", tool_calls := [⟨"t1", .str_replace "zz" "yy"⟩] }
    searchFmt := fun _ => "no results" }

/- ── theorems ──────────────────────────────────────────────────────────── -/

/- ── helper lemmas about substrIn / replaceFirst ─────────────────────────── -/

theorem substrIn_nil_left (s : List Char) : substrIn [] s = true := by
  cases s <;> simp [substrIn]

theorem replaceFirst_of_isPrefixOf {old : List Char} (new : List Char)
    {s : List Char} (h : old.isPrefixOf s = true) :
    replaceFirst old new s = new ++ List.drop old.length s := by
  cases s <;> simp_all [replaceFirst]

theorem replaceFirst_cons_of_not {old new : List Char} {c : Char} {t : List Char}
    (h : old.isPrefixOf (c :: t) = false) :
    replaceFirst old new (c :: t) = c :: replaceFirst old new t := by
  simp [replaceFirst, h]

theorem isPrefixOf_append_self (old post : List Char) :
    old.isPrefixOf (old ++ post) = true := by
  simp

theorem substrIn_of_decomp {old : List Char} :
    ∀ {pre post s : List Char}, s = pre ++ old ++ post → substrIn old s = true := by
  intro pre
  induction pre with
  | nil =>
    intro post s hs
    subst hs
    have hpre := isPrefixOf_append_self old post
    cases hc : (old ++ post : List Char) with
    | nil =>
      rw [hc] at hpre
      simp only [List.nil_append]
      rw [hc]
      simpa [substrIn] using hpre
    | cons c t =>
      rw [hc] at hpre
      simp only [List.nil_append]
      rw [hc]
      simp [substrIn, hpre]
  | cons c pre' ih =>
    intro post s hs
    subst hs
    simp only [List.cons_append, substrIn, Bool.or_eq_true]
    exact Or.inr (ih rfl)

/-- The leftmost-occurrence characterisation of `replaceFirst`: when `old`
occurs in `s`, there is a least position `i` at which it occurs, and the
result is `s` with the occurrence at `i` replaced by `new`. -/
theorem replaceFirst_leftmost (old new : List Char) :
    ∀ s : List Char, substrIn old s = true →
      ∃ i, i ≤ s.length ∧ old.isPrefixOf (s.drop i) = true
        ∧ (∀ j, j < i → old.isPrefixOf (s.drop j) = false)
        ∧ replaceFirst old new s = s.take i ++ new ++ s.drop (i + old.length) := by
  intro s
  induction s with
  | nil =>
    intro h
    have hp : old.isPrefixOf ([] : List Char) = true := by simpa [substrIn] using h
    refine ⟨0, by simp, by simpa using hp, ?_, ?_⟩
    · intro j hj; omega
    · rw [replaceFirst_of_isPrefixOf new hp]; simp
  | cons c t ih =>
    intro h
    by_cases hp : old.isPrefixOf (c :: t) = true
    · refine ⟨0, by simp, by simpa using hp, ?_, ?_⟩
      · intro j hj; omega
      · rw [replaceFirst_of_isPrefixOf new hp]; simp
    · have hp' : old.isPrefixOf (c :: t) = false := by
        rwa [Bool.not_eq_true] at hp
      have ht : substrIn old t = true := by
        have h' := h
        simp [substrIn, hp'] at h'
        exact h'
      obtain ⟨i, hle, h1, h2, h3⟩ := ih ht
      refine ⟨i + 1, by simpa using Nat.succ_le_succ hle, by simpa using h1, ?_, ?_⟩
      · intro j hj
        cases j with
        | zero => simpa using hp'
        | succ j' => simpa using h2 j' (by omega)
      · have harith : i + 1 + old.length = (i + old.length) + 1 := by omega
        rw [replaceFirst_cons_of_not hp', h3, harith]
        simp

theorem mem_occurrencePositions {old s : List Char} {i : Nat} :
    i ∈ occurrencePositions old s ↔ i < s.length + 1 ∧ old.isPrefixOf (s.drop i) = true := by
  simp [occurrencePositions, List.mem_filter, List.mem_range]

theorem occ_unique {old s : List Char} (h : occCount old s = 1) {i j : Nat}
    (hi : i ≤ s.length) (hj : j ≤ s.length)
    (hpi : old.isPrefixOf (s.drop i) = true) (hpj : old.isPrefixOf (s.drop j) = true) :
    i = j := by
  obtain ⟨a, ha⟩ := List.length_eq_one.mp h
  have h1 : i ∈ occurrencePositions old s := mem_occurrencePositions.mpr ⟨by omega, hpi⟩
  have h2 : j ∈ occurrencePositions old s := mem_occurrencePositions.mpr ⟨by omega, hpj⟩
  rw [ha, List.mem_singleton] at h1 h2
  omega

/-- C1: for every document and pair of strings: an absent target leaves the
document unchanged with the NotFound signal (`false`); a present target has
its leftmost occurrence (and only that occurrence) replaced; a uniquely
occurring target gives exactly the original with that occurrence substituted,
and the length changes by `len(new) - len(old)`. -/
theorem str_replace_first_occurrence_spec (doc old new : String) :
    (substrIn old.data doc.data = false →
      execute_str_replace doc old new = (doc, false))
  ∧ (substrIn old.data doc.data = true →
      ∃ i, old.data.isPrefixOf (doc.data.drop i) = true
        ∧ (∀ j, j < i → old.data.isPrefixOf (doc.data.drop j) = false)
        ∧ execute_str_replace doc old new
            = (String.mk (doc.data.take i ++ new.data ++ doc.data.drop (i + old.length)), true))
  ∧ (occCount old.data doc.data = 1 →
      ∀ pre post : List Char, doc.data = pre ++ old.data ++ post →
        execute_str_replace doc old new = (String.mk (pre ++ new.data ++ post), true)
        ∧ ((execute_str_replace doc old new).1.length : ℤ)
            = (doc.length : ℤ) + (new.length : ℤ) - (old.length : ℤ)) := by
  refine ⟨?_, ?_, ?_⟩
  · intro h
    simp [execute_str_replace, strContains, h]
  · intro h
    obtain ⟨i, hle, h1, h2, h3⟩ := replaceFirst_leftmost old.data new.data doc.data h
    refine ⟨i, h1, h2, ?_⟩
    simp only [execute_str_replace, strContains, h, if_true]
    rw [h3]
    rfl
  · intro hocc pre post hdec
    have hin : substrIn old.data doc.data = true := substrIn_of_decomp hdec
    obtain ⟨i, hle, h1, h2, h3⟩ := replaceFirst_leftmost old.data new.data doc.data hin
    have hdrop : doc.data.drop pre.length = old.data ++ post := by
      rw [hdec, List.append_assoc, List.drop_left]
    have hppre : old.data.isPrefixOf (doc.data.drop pre.length) = true := by
      rw [hdrop]; exact isPrefixOf_append_self _ _
    have hlenpre : pre.length ≤ doc.data.length := by
      rw [hdec]; simp only [List.length_append]; omega
    have hieq : i = pre.length := occ_unique hocc hle hlenpre h1 hppre
    subst hieq
    have htake : doc.data.take pre.length = pre := by
      rw [hdec, List.append_assoc, List.take_left]
    have hdropend : doc.data.drop (pre.length + old.data.length) = post := by
      rw [hdec]
      have hl : pre.length + old.data.length = (pre ++ old.data).length := by
        simp [List.length_append]
      rw [hl, List.drop_left]
    have hres : execute_str_replace doc old new = (String.mk (pre ++ new.data ++ post), true) := by
      simp only [execute_str_replace, strContains, hin, if_true]
      rw [h3]
      show (String.mk (doc.data.take pre.length ++ new.data
              ++ doc.data.drop (pre.length + old.data.length)), true) = _
      rw [htake, hdropend]
    refine ⟨hres, ?_⟩
    rw [hres]
    have hlen : doc.data.length = pre.length + old.data.length + post.length := by
      rw [hdec]; simp only [List.length_append]
    show ((pre ++ new.data ++ post).length : ℤ)
        = (doc.data.length : ℤ) + (new.data.length : ℤ) - (old.data.length : ℤ)
    simp only [List.length_append]
    omega

/-- C1 witness: the three cases exercised on concrete strings. -/
theorem str_replace_first_occurrence_spec_witness :
    execute_str_replace "abcd" "xz" "Q" = ("abcd", false)
  ∧ execute_str_replace "abcd" "bc" "XY" = (String.mk ("a".data ++ "XY".data ++ "d".data), true) :=
  ⟨(str_replace_first_occurrence_spec "abcd" "xz" "Q").1 (by decide),
   ((str_replace_first_occurrence_spec "abcd" "bc" "XY").2.2 (by decide)
      "a".data "d".data (by decide)).1⟩

/-- C9: calling the patch operation with an empty target always succeeds and
prepends `new` to the document (the empty substring is found at position 0);
it never signals NotFound, and when `new` is non-empty the document changes. -/
theorem str_replace_empty_old (doc new : String) :
    execute_str_replace doc "" new = (new ++ doc, true)
  ∧ (new ≠ "" → (new ++ doc) ≠ doc) := by
  constructor
  · have hin : substrIn ("" : String).data doc.data = true := substrIn_nil_left doc.data
    simp only [execute_str_replace, strContains, hin, if_true]
    have hrep := @replaceFirst_of_isPrefixOf ("" : String).data new.data doc.data (by simp)
    rw [hrep]
    rfl
  · intro hne heq
    apply hne
    have hlen : (new ++ doc).data.length = doc.data.length := by rw [heq]
    have : new.data.length = 0 := by
      have hd : (new ++ doc).data = new.data ++ doc.data := String.data_append new doc
      rw [hd, List.length_append] at hlen
      omega
    have hnil : new.data = [] := List.eq_nil_of_length_eq_zero this
    cases new with
    | mk l => simp_all

/-- C9 witness: the empty-target patch at a concrete input. -/
theorem str_replace_empty_old_witness :
    execute_str_replace "abc" "" "X" = ("X" ++ "abc", true)
  ∧ ("X" ++ "abc" : String) ≠ "abc" :=
  ⟨(str_replace_empty_old "abc" "X").1,
   (str_replace_empty_old "abc" "X").2 (by decide)⟩

/-- C8 counterexample: the request body has no `model_id` field; the response
body carries `status` and `agent` (not `model`); a missing page produces a
500 (the in-handler 404 is rewrapped by the catch-all), and the app exposes
no endpoint listing model identifiers — only `/` and `/agent/run`. -/
theorem agent_run_contradicts_claimed_boundary :
    "model_id" ∉ agentRunRequestFields
  ∧ agent_run c8pages ⟨"m1", "p1", "make it blue"⟩
      = .ok [("status", "accepted"), ("agent", "edit")] .edit
  ∧ [("status", "accepted"), ("agent", "edit")].map Prod.fst = ["status", "agent"]
  ∧ agent_run c8pages ⟨"m1", "nope", "hello"⟩ = .httpError 500 "404: Page not found"
  ∧ appRoutes = [("GET", "/"), ("POST", "/agent/run")] := by
  refine ⟨by decide, by decide, by decide, by decide, rfl⟩

/-- C8 as amended: `/agent/run` accepts `{message_id, page_id, content}`,
checks the page lookup, dispatches the create or edit agent asynchronously
and immediately returns `{status: "accepted", agent}`; a missing page (and
any other dispatch-time exception) surfaces as a 500, the in-handler 404
being rewrapped by the catch-all; the known model identifiers exist only as
the config constant `ALL_MODELS`, with no endpoint serving them. -/
theorem agent_run_boundary_spec (gp : String → Option PageRecord) (req : AgentRunRequest) :
    agentRunRequestFields = ["message_id", "page_id", "content"]
  ∧ (gp req.page_id = none → agent_run gp req = .httpError 500 "404: Page not found")
  ∧ (∀ page, gp req.page_id = some page →
      agent_run gp req
        = .ok [("status", "accepted"),
               ("agent", if is_first_prompt page.html_content then "create" else "edit")]
              (if is_first_prompt page.html_content then .create else .edit))
  ∧ appRoutes = [("GET", "/"), ("POST", "/agent/run")]
  ∧ ALL_MODELS = ["groq/llama-3.3-70b", "groq/llama-3.1-8b",
                  "claude/claude-sonnet-4-5", "claude/claude-haiku-4-5"] := by
  refine ⟨rfl, ?_, ?_, rfl, rfl⟩
  · intro h
    simp [agent_run, h]
  · intro page h
    simp [agent_run, h]

/-- C8 amended-claim witness: the handler applied at a missing and at an
existing page. -/
theorem agent_run_boundary_spec_witness :
    agent_run c8pages ⟨"m2", "nope", "x"⟩ = .httpError 500 "404: Page not found"
  ∧ agent_run c8pages ⟨"m3", "p1", "x"⟩
      = .ok [("status", "accepted"),
             ("agent", if is_first_prompt "<h1>Existing page</h1>" then "create" else "edit")]
            (if is_first_prompt "<h1>Existing page</h1>" then .create else .edit) :=
  ⟨(agent_run_boundary_spec c8pages ⟨"m2", "nope", "x"⟩).2.1 (by decide),
   (agent_run_boundary_spec c8pages ⟨"m3", "p1", "x"⟩).2.2.1
     ⟨"<h1>Existing page</h1>"⟩ (by decide)⟩

/- ── helper lemmas about the tool loop ───────────────────────────────────── -/

theorem execute_str_replace_fst_of_failure {h o n : String}
    (hf : (execute_str_replace h o n).2 = false) :
    (execute_str_replace h o n).1 = h := by
  unfold execute_str_replace at *
  by_cases hc : strContains h o <;> simp_all

theorem processToolCalls_cons_str_replace (sf : String → String)
    (id old new : String) (rest : List ToolCall) (ctx : LoopCtx)
    (trs : List (String × String)) :
    ∃ ctx1 trs1,
      execTool sf ⟨id, .str_replace old new⟩ ctx trs = .go ctx1 trs1
      ∧ ctx1.current_html = (execute_str_replace ctx.current_html old new).1
      ∧ processToolCalls sf (⟨id, .str_replace old new⟩ :: rest) ctx trs
          = processToolCalls sf rest ctx1 trs1 := by
  by_cases hs : (execute_str_replace ctx.current_html old new).2 = true
  · refine ⟨{ ctx with
        current_html := (execute_str_replace ctx.current_html old new).1
        events := ctx.events ++ [.updateHtml (execute_str_replace ctx.current_html old new).1]
        changes_log := ctx.changes_log ++ [.strReplace (strTake old 80) true] },
      trs ++ [(id, "replaced successfully")], ?_, rfl, ?_⟩
    · simp [execTool, hs]
    · simp [processToolCalls, execTool, hs]
  · have hs' : (execute_str_replace ctx.current_html old new).2 = false := by
      rwa [Bool.not_eq_true] at hs
    have hfst := execute_str_replace_fst_of_failure hs'
    refine ⟨{ ctx with
        changes_log := ctx.changes_log ++ [.strReplace (strTake old 80) false] },
      trs ++ [(id, notFoundError)], ?_, ?_, ?_⟩
    · simp [execTool, hs']
    · simpa using hfst.symm
    · simp [processToolCalls, execTool, hs']

theorem processToolCalls_str_replace_turn (sf : String → String)
    (ps : List (String × String × String)) :
    ∀ ctx trs, ∃ ctx2 trs2,
      processToolCalls sf (ps.map fun p => ⟨p.1, .str_replace p.2.1 p.2.2⟩) ctx trs
        = .next ctx2 trs2
      ∧ ctx2.current_html
          = ps.foldl (fun h p => (execute_str_replace h p.2.1 p.2.2).1) ctx.current_html := by
  induction ps with
  | nil => intro ctx trs; exact ⟨ctx, trs, rfl, rfl⟩
  | cons p ps ih =>
    intro ctx trs
    obtain ⟨ctx1, trs1, _, hhtml, hstep⟩ :=
      processToolCalls_cons_str_replace sf p.1 p.2.1 p.2.2
        (ps.map fun p => ⟨p.1, .str_replace p.2.1 p.2.2⟩) ctx trs
    obtain ⟨ctx2, trs2, h1, h2⟩ := ih ctx1 trs1
    refine ⟨ctx2, trs2, ?_, ?_⟩
    · rw [List.map_cons, hstep]; exact h1
    · rw [h2, hhtml, List.foldl_cons]

theorem processToolCalls_terminal_cut (sf : String → String) (c : ToolCall)
    (ctx : LoopCtx) (trs : List (String × String)) (hc : isTerminalCall c = true) :
    ∀ rest, processToolCalls sf (c :: rest) ctx trs = processToolCalls sf [c] ctx trs
      ∧ ∃ ctx3 out, processToolCalls sf [c] ctx trs = .terminal ctx3 out := by
  intro rest
  obtain ⟨id, action⟩ := c
  cases action with
  | write_full_file html summary hsum cm =>
    have hhtml : (html == "") = false := by
      simpa [isTerminalCall] using hc
    refine ⟨by simp [processToolCalls, execTool, hhtml], ?_⟩
    cases hres : processToolCalls sf [⟨id, .write_full_file html summary hsum cm⟩] ctx trs with
    | terminal a b => exact ⟨a, b, rfl⟩
    | next a b => simp [processToolCalls, execTool, hhtml] at hres
  | str_replace o n => simp [isTerminalCall] at hc
  | ask_clarification q =>
    refine ⟨by simp [processToolCalls, execTool], ?_⟩
    cases hres : processToolCalls sf [⟨id, .ask_clarification q⟩] ctx trs with
    | terminal a b => exact ⟨a, b, rfl⟩
    | next a b => simp [processToolCalls, execTool] at hres
  | web_search q => simp [isTerminalCall] at hc
  | finish s =>
    refine ⟨by simp [processToolCalls, execTool], ?_⟩
    cases hres : processToolCalls sf [⟨id, .finish s⟩] ctx trs with
    | terminal a b => exact ⟨a, b, rfl⟩
    | next a b => simp [processToolCalls, execTool] at hres
  | unrecognized nm => simp [isTerminalCall] at hc

theorem toolLoop_terminal_turn (sf : String → String) (oracle : Nat → ModelResponse)
    (fuel iteration : Nat) (ctx ctx' : LoopCtx) (out : Outcome)
    (h : processToolCalls sf (oracle iteration).tool_calls ctx [] = .terminal ctx' out) :
    toolLoop sf oracle (fuel + 1) iteration ctx = (1, ctx', .terminal out) := by
  cases htc : (oracle iteration).tool_calls with
  | nil => rw [htc] at h; simp [processToolCalls] at h
  | cons tc rest =>
    rw [htc] at h
    simp [toolLoop, htc, h]

theorem toolLoop_calls_le (sf : String → String) (oracle : Nat → ModelResponse) :
    ∀ fuel iteration ctx, (toolLoop sf oracle fuel iteration ctx).1 ≤ fuel := by
  intro fuel
  induction fuel with
  | zero => intro it ctx; simp [toolLoop]
  | succ fuel ih =>
    intro it ctx
    simp only [toolLoop]
    split
    · simp
    · split
      · simp
      · exact Nat.succ_le_succ (ih _ _)

theorem toolLoop_calls_pos (sf : String → String) (oracle : Nat → ModelResponse)
    (fuel iteration : Nat) (ctx : LoopCtx) :
    1 ≤ (toolLoop sf oracle (fuel + 1) iteration ctx).1 := by
  simp only [toolLoop]
  split
  · simp
  · split
    · simp
    · simp

theorem editToolLoop_calls_le (oracle : Nat → ModelResponse) :
    ∀ fuel iteration ctx, (editToolLoop oracle fuel iteration ctx).1 ≤ fuel := by
  intro fuel
  induction fuel with
  | zero => intro it ctx; simp [editToolLoop]
  | succ fuel ih =>
    intro it ctx
    simp only [editToolLoop]
    split
    · simp
    · split
      · simp
      · exact Nat.succ_le_succ (ih _ _)

/-- C3 counterexample: in the turn `[write_full_file(html=""), str_replace]`
the `write_full_file` invocation executes (producing its EmptyContent tool
result) yet control does not return out of the loop — the following
`str_replace` of the same turn still executes and rewrites the document. -/
theorem tool_turn_continues_after_empty_full_write :
    ∃ ctx' trs',
      processToolCalls (fun _ => "")
        [⟨"a", .write_full_file "" "s" "" []⟩, ⟨"b", .str_replace "x" "y"⟩]
        (baseCtx "x") [] = .next ctx' trs'
      ∧ ctx'.current_html = "y"
      ∧ trs' = [("a", emptyHtmlError), ("b", "replaced successfully")] := by
  refine ⟨_, _, rfl, by decide, by decide⟩

/-- C3 as amended: within one model turn, tool invocations execute strictly
left to right, each `str_replace` seeing the document state left by earlier
invocations of the turn; and the instant a terminal invocation — a
`write_full_file` with non-empty content, an `ask_clarification`, or a
`finish` — executes, control returns out of the loop and the request ends,
discarding the rest of the turn. (An empty `write_full_file` is not
terminal: the turn continues past it.) -/
theorem tool_turn_ordering_and_termination (sf : String → String) (ctx : LoopCtx)
    (trs : List (String × String)) :
    (∀ id old new rest, ∃ ctx1 trs1,
        execTool sf ⟨id, .str_replace old new⟩ ctx trs = .go ctx1 trs1
      ∧ ctx1.current_html = (execute_str_replace ctx.current_html old new).1
      ∧ processToolCalls sf (⟨id, .str_replace old new⟩ :: rest) ctx trs
          = processToolCalls sf rest ctx1 trs1)
  ∧ (∀ ps : List (String × String × String), ∃ ctx2 trs2,
        processToolCalls sf (ps.map fun p => ⟨p.1, .str_replace p.2.1 p.2.2⟩) ctx trs
          = .next ctx2 trs2
      ∧ ctx2.current_html
          = ps.foldl (fun h p => (execute_str_replace h p.2.1 p.2.2).1) ctx.current_html)
  ∧ (∀ c : ToolCall, isTerminalCall c = true → ∀ rest,
        processToolCalls sf (c :: rest) ctx trs = processToolCalls sf [c] ctx trs
      ∧ ∃ ctx3 out, processToolCalls sf [c] ctx trs = .terminal ctx3 out)
  ∧ (∀ oracle fuel iteration ctx' out,
        processToolCalls sf (oracle iteration).tool_calls ctx [] = .terminal ctx' out →
        toolLoop sf oracle (fuel + 1) iteration ctx = (1, ctx', .terminal out)) := by
  refine ⟨?_, ?_, ?_, ?_⟩
  · intro id old new rest
    exact processToolCalls_cons_str_replace sf id old new rest ctx trs
  · intro ps
    exact processToolCalls_str_replace_turn sf ps ctx trs
  · intro c hc rest
    exact processToolCalls_terminal_cut sf c ctx trs hc rest
  · intro oracle fuel iteration ctx' out h
    exact toolLoop_terminal_turn sf oracle fuel iteration ctx ctx' out h

/-- C3 amended-claim witness: a `finish` call cuts its turn at a concrete
state. -/
theorem tool_turn_ordering_and_termination_witness :
    processToolCalls (fun _ => "") [⟨"f", .finish "done"⟩, ⟨"x", .web_search "q"⟩]
        (baseCtx "w") []
      = processToolCalls (fun _ => "") [⟨"f", .finish "done"⟩] (baseCtx "w") []
  ∧ ∃ ctx3 out,
      processToolCalls (fun _ => "") [⟨"f", .finish "done"⟩] (baseCtx "w") []
        = .terminal ctx3 out :=
  (tool_turn_ordering_and_termination (fun _ => "") (baseCtx "w") []).2.2.1
    ⟨"f", .finish "done"⟩ (by decide) [⟨"x", .web_search "q"⟩]

/-- C7 counterexample: an empty `write_full_file` is not terminal for its
loop iteration — the following tool call of the same turn still executes
(the document changes under it) while the EmptyContent error goes back as a
tool result. -/
theorem full_write_empty_content_continues_turn :
    ∃ ctx' trs',
      processToolCalls (fun _ => "")
        [⟨"w", .write_full_file "" "sum" "" []⟩, ⟨"r", .str_replace "ell" "ipp"⟩]
        (baseCtx "hello") [] = .next ctx' trs'
      ∧ ctx'.current_html = "hippo"
      ∧ trs' = [("w", emptyHtmlError), ("r", "replaced successfully")] := by
  refine ⟨_, _, rfl, by decide, by decide⟩

/-- C7 as amended: a `write_full_file` requires non-empty content — with
empty content it produces the EmptyContent error as a textual tool result
fed back to the model (the state is untouched: nothing is raised and nothing
is shown to the user) and the turn continues with the remaining tool calls;
a `write_full_file` with non-empty content is terminal: the turn is cut and
no further tool calls of the turn execute. -/
theorem full_write_content_requirement_spec (sf : String → String) (ctx : LoopCtx)
    (trs : List (String × String)) (id s hsum : String) (cm : List Component) :
    execTool sf ⟨id, .write_full_file "" s hsum cm⟩ ctx trs
      = .go ctx (trs ++ [(id, emptyHtmlError)])
  ∧ (∀ rest, processToolCalls sf (⟨id, .write_full_file "" s hsum cm⟩ :: rest) ctx trs
        = processToolCalls sf rest ctx (trs ++ [(id, emptyHtmlError)]))
  ∧ emptyHtmlError = "ERROR: html field is empty. You must provide complete HTML content."
  ∧ (∀ html, (html == "") = false → ∀ rest,
        (processToolCalls sf (⟨id, .write_full_file html s hsum cm⟩ :: rest) ctx trs
          = processToolCalls sf [⟨id, .write_full_file html s hsum cm⟩] ctx trs)
      ∧ ∃ ctx', processToolCalls sf [⟨id, .write_full_file html s hsum cm⟩] ctx trs
          = .terminal ctx' (.completed s)) := by
  refine ⟨by simp [execTool], ?_, rfl, ?_⟩
  · intro rest
    simp [processToolCalls, execTool]
  · intro html hh rest
    have hterm := processToolCalls_terminal_cut sf ⟨id, .write_full_file html s hsum cm⟩
      ctx trs (by simp [isTerminalCall, hh]) rest
    obtain ⟨a, b, hab⟩ := hterm.2
    have hb : b = .completed s := by
      simp [processToolCalls, execTool, hh] at hab
      exact hab.2.symm
    exact ⟨hterm.1, a, by rw [hab, hb]⟩

/-- C7 amended-claim witness: the empty and the non-empty case at a concrete
state. -/
theorem full_write_content_requirement_spec_witness :
    execTool (fun _ => "") ⟨"w", .write_full_file "" "s1" "" []⟩ (baseCtx "doc") []
      = .go (baseCtx "doc") ([] ++ [("w", emptyHtmlError)])
  ∧ (processToolCalls (fun _ => "")
        [⟨"w", .write_full_file "<p>q</p>" "s1" "" []⟩, ⟨"z", .web_search "k"⟩]
        (baseCtx "doc") []
      = processToolCalls (fun _ => "") [⟨"w", .write_full_file "<p>q</p>" "s1" "" []⟩]
          (baseCtx "doc") [])
  ∧ ∃ ctx', processToolCalls (fun _ => "") [⟨"w", .write_full_file "<p>q</p>" "s1" "" []⟩]
        (baseCtx "doc") []
      = .terminal ctx' (.completed "s1") := by
  have H := full_write_content_requirement_spec (fun _ => "") (baseCtx "doc") [] "w" "s1" "" []
  have H2 := H.2.2.2 "<p>q</p>" (by decide) [⟨"z", .web_search "k"⟩]
  exact ⟨H.1, H2.1, H2.2⟩

/-- C10: a successful `write_full_file` always replaces the document, but
the stored summary and component map change only when the supplied
`html_summary` is non-empty: with an empty `html_summary` no
`update_page_summary_and_map` call is issued and the page keeps its previous
summary and component map. -/
theorem full_write_summary_map_frame (sf : String → String) (ctx : LoopCtx)
    (trs : List (String × String)) (id html s hsum : String) (cm : List Component)
    (store : PageStore) (hhtml : (html == "") = false) :
    ∃ ctx' delta,
      execTool sf ⟨id, .write_full_file html s hsum cm⟩ ctx trs = .halt ctx' (.completed s)
    ∧ ctx'.events = ctx.events ++ delta
    ∧ applyEvents store delta
        = { html_content := html
            html_summary := if hsum == "" then store.html_summary else hsum
            component_map := if hsum == "" then store.component_map else cm }
    ∧ ((hsum == "") = true → ∀ s2 m2, Event.updateSummaryAndMap s2 m2 ∉ delta) := by
  by_cases hsc : (hsum == "") = true
  · refine ⟨{ ctx with
        current_html := html
        changes_log := ctx.changes_log ++ [.writeFullFile s true]
        final_summary := s
        events := (ctx.events ++ [.updateHtml html]) ++ [.snapshot html,
          .msgStatus "completed", .assistantMsg s "chat",
          .editHistory (ctx.plan.complexity.getD "moderate") "full_rewrite"
            (ctx.changes_log ++ [.writeFullFile s true]) ctx.clarification_asked true] },
      [.updateHtml html, .snapshot html, .msgStatus "completed", .assistantMsg s "chat",
        .editHistory (ctx.plan.complexity.getD "moderate") "full_rewrite"
          (ctx.changes_log ++ [.writeFullFile s true]) ctx.clarification_asked true],
      ?_, ?_, ?_, ?_⟩
    · simp [execTool, hhtml, hsc]
    · simp
    · simp [applyEvents, applyEvent, hsc]
    · intro _ s2 m2
      simp
  · have hsc' : (hsum == "") = false := by
      rwa [Bool.not_eq_true] at hsc
    refine ⟨{ ctx with
        current_html := html
        changes_log := ctx.changes_log ++ [.writeFullFile s true]
        final_summary := s
        events := ((ctx.events ++ [.updateHtml html]) ++ [.updateSummaryAndMap hsum cm])
          ++ [.snapshot html, .msgStatus "completed", .assistantMsg s "chat",
          .editHistory (ctx.plan.complexity.getD "moderate") "full_rewrite"
            (ctx.changes_log ++ [.writeFullFile s true]) ctx.clarification_asked true] },
      [.updateHtml html, .updateSummaryAndMap hsum cm, .snapshot html,
        .msgStatus "completed", .assistantMsg s "chat",
        .editHistory (ctx.plan.complexity.getD "moderate") "full_rewrite"
          (ctx.changes_log ++ [.writeFullFile s true]) ctx.clarification_asked true],
      ?_, ?_, ?_, ?_⟩
    · simp [execTool, hhtml, hsc']
    · simp
    · simp [applyEvents, applyEvent, hsc']
    · intro habs
      rw [habs] at hsc'
      cases hsc'

/-- C10 witness: a full write with empty `html_summary` over a page with a
previous summary and map. -/
theorem full_write_summary_map_frame_witness :
    ∃ ctx' delta,
      execTool (fun _ => "") ⟨"w", .write_full_file "<p>n</p>" "sum" "" []⟩
          (baseCtx "old") [] = .halt ctx' (.completed "sum")
    ∧ ctx'.events = (baseCtx "old").events ++ delta
    ∧ applyEvents c10store delta
        = { html_content := "<p>n</p>"
            html_summary := if ("" : String) == "" then c10store.html_summary else ""
            component_map := if ("" : String) == "" then c10store.component_map else [] }
    ∧ ((("" : String) == "") = true → ∀ s2 m2, Event.updateSummaryAndMap s2 m2 ∉ delta) :=
  full_write_summary_map_frame (fun _ => "") (baseCtx "old") [] "w" "<p>n</p>" "sum" "" []
    c10store (by decide)

/-- C6: when `json.loads` raises, `_parse_plan` does return the fixed
default plan (surgical_edit / simple / no clarification / empty change
list). But the safety net has a hole: a planner output that is valid
non-object JSON — such as the bare scalar "3" — parses without exception,
`_parse_plan` returns it as-is instead of the default plan, and the
orchestrator then crashes on the first `plan` dict access, ending in the
fatal error path rather than proceeding with a usable plan. -/
theorem parse_plan_default_fallback_and_scalar_hole :
    _parse_plan (fun _ => .failure) "this is not json" = .dict default_plan
  ∧ default_plan.decision = some "surgical_edit"
  ∧ default_plan.complexity = some "simple"
  ∧ default_plan.needs_clarification = some false
  ∧ default_plan.changes = []
  ∧ _parse_plan json_loads_scalar3 "3" = .scalar
  ∧ (run_orchestrator c6input).outcome = .error :=
  ⟨rfl, rfl, rfl, rfl, rfl, by decide, by decide⟩

/-- C2 counterexample: a request against a blank-placeholder document can
still end in `clarification_pending` — the override only disables the
planner path, while the tool-loop model may call `ask_clarification`, which
has no blank-document guard. -/
theorem blank_doc_can_reach_clarification_pending :
    _is_boilerplate cexC2input.page.html_content = true
  ∧ (run_orchestrator cexC2input).outcome
      = .clarificationPending "Which style do you want?" :=
  ⟨by decide, by decide⟩

/-- C2 as amended: for a blank-placeholder document the plan's decision is
forced to `full_rewrite` and its clarification need suppressed, so the
planner-driven short-circuit to `clarification_pending` never fires,
regardless of the Planner's output — every such request (when the plan
parses as a dict) enters the tool loop, which may itself still ask a
clarification. -/
theorem blank_doc_never_planner_clarification (inp : RunInput)
    (hb : _is_boilerplate inp.page.html_content = true) :
    (∀ p : Plan,
        (planAfterOverride p true).decision = some "full_rewrite"
      ∧ (planAfterOverride p true).needs_clarification = some false
      ∧ shortCircuitCond (planAfterOverride p true) true = false)
  ∧ (run_orchestrator inp).exitKind ≠ .shortCircuit
  ∧ (∀ p0, _parse_plan inp.jsonLoads inp.planRaw = .dict p0 →
      1 ≤ (run_orchestrator inp).loopModelCalls) := by
  have hover : ∀ p : Plan,
      (planAfterOverride p true).decision = some "full_rewrite"
    ∧ (planAfterOverride p true).needs_clarification = some false
    ∧ shortCircuitCond (planAfterOverride p true) true = false := by
    intro p
    refine ⟨by simp [planAfterOverride], by simp [planAfterOverride], ?_⟩
    simp [shortCircuitCond, planAfterOverride, pythonTruthy]
  refine ⟨hover, ?_, ?_⟩
  · simp only [run_orchestrator]
    cases hpv : _parse_plan inp.jsonLoads inp.planRaw with
    | scalar => simp [fatalResult]
    | dict p0 =>
      simp only [hb]
      have hsc := (hover p0).2.2
      simp only [hsc, Bool.false_eq_true, if_false]
      cases hE : (toolLoop inp.searchFmt inp.oracle 15 1
          (initialLoopCtx inp (planAfterOverride p0 true))).2.2 with
      | terminal out => simp [loopPhaseResult, hE]
      | noToolCalls => simp [loopPhaseResult, hE]
      | ceiling => simp [loopPhaseResult, hE]
  · intro p0 hpv
    simp only [run_orchestrator, hpv, hb]
    have hsc := (hover p0).2.2
    simp only [hsc, Bool.false_eq_true, if_false]
    cases hE : (toolLoop inp.searchFmt inp.oracle 15 1
        (initialLoopCtx inp (planAfterOverride p0 true))).2.2 with
    | terminal out =>
      simp only [loopPhaseResult, hE]
      exact toolLoop_calls_pos _ _ 14 _ _
    | noToolCalls =>
      simp only [loopPhaseResult, hE]
      exact toolLoop_calls_pos _ _ 14 _ _
    | ceiling =>
      simp only [loopPhaseResult, hE]
      exact toolLoop_calls_pos _ _ 14 _ _

/-- C2 amended-claim witness: the blank-placeholder request above. -/
theorem blank_doc_never_planner_clarification_witness :
    (∀ p : Plan,
        (planAfterOverride p true).decision = some "full_rewrite"
      ∧ (planAfterOverride p true).needs_clarification = some false
      ∧ shortCircuitCond (planAfterOverride p true) true = false)
  ∧ (run_orchestrator cexC2input).exitKind ≠ .shortCircuit
  ∧ (∀ p0, _parse_plan cexC2input.jsonLoads cexC2input.planRaw = .dict p0 →
      1 ≤ (run_orchestrator cexC2input).loopModelCalls) :=
  blank_doc_never_planner_clarification cexC2input (by decide)

/- ── C5: the planner clarification short-circuit ─────────────────────────── -/

/-- C5: when the (non-overridden) plan requests clarification, the document
is not the blank placeholder, and confidence is strictly below 0.6, the
orchestrator short-circuits without a single tool-loop model call: it
inserts an unresolved clarification thread, posts the question as the chat
reply (message_type "clarification"), and records an edit-history row with
decision "clarification". -/
theorem planner_clarification_short_circuit (inp : RunInput) (p : Plan)
    (hp : _parse_plan inp.jsonLoads inp.planRaw = .dict p)
    (hnc : pythonTruthy p.needs_clarification = true)
    (hnb : _is_boilerplate inp.page.html_content = false)
    (hconf : p.confidence.getD 1 < 3 / 5) :
    (run_orchestrator inp).loopModelCalls = 0
  ∧ (run_orchestrator inp).exitKind = .shortCircuit
  ∧ (run_orchestrator inp).outcome
      = .clarificationPending
          (p.clarification_question.getD "Could you clarify what you would like?")
  ∧ (run_orchestrator inp).events
      = preEvents inp
        ++ [.insertClar (p.clarification_question.getD "Could you clarify what you would like?"),
            .msgStatus "completed",
            .assistantMsg (p.clarification_question.getD "Could you clarify what you would like?")
              "clarification",
            .editHistory (p.complexity.getD "simple") "clarification" [] true true] := by
  have hd : decide (p.confidence.getD 1 < (3 / 5 : ℚ)) = true := decide_eq_true hconf
  have hcond : shortCircuitCond (planAfterOverride p false) false = true := by
    simp [shortCircuitCond, planAfterOverride, hnc, hd]
  simp only [run_orchestrator, hp, hnb]
  simp only [hcond, if_true]
  simp [shortCircuitResult, planAfterOverride]

/-- C5 witness: the short-circuit exercised on the concrete request. -/
theorem planner_clarification_short_circuit_witness :
    (run_orchestrator c5input).loopModelCalls = 0
  ∧ (run_orchestrator c5input).exitKind = .shortCircuit
  ∧ (run_orchestrator c5input).outcome
      = .clarificationPending
          (c5plan.clarification_question.getD "Could you clarify what you would like?")
  ∧ (run_orchestrator c5input).events
      = preEvents c5input
        ++ [.insertClar (c5plan.clarification_question.getD "Could you clarify what you would like?"),
            .msgStatus "completed",
            .assistantMsg (c5plan.clarification_question.getD "Could you clarify what you would like?")
              "clarification",
            .editHistory (c5plan.complexity.getD "simple") "clarification" [] true true] :=
  planner_clarification_short_circuit c5input c5plan rfl (by decide) (by decide)
    (by norm_num [c5plan])

/- ── C4: the iteration ceiling ───────────────────────────────────────────── -/

theorem loopPhaseResult_calls_le (inp : RunInput) (plan : Plan) :
    (loopPhaseResult inp plan).loopModelCalls ≤ 15 := by
  cases hE : (toolLoop inp.searchFmt inp.oracle 15 1 (initialLoopCtx inp plan)).2.2 with
  | terminal out =>
    simp only [loopPhaseResult, hE]
    exact toolLoop_calls_le _ _ _ _ _
  | noToolCalls =>
    simp only [loopPhaseResult, hE]
    exact toolLoop_calls_le _ _ _ _ _
  | ceiling =>
    simp only [loopPhaseResult, hE]
    exact toolLoop_calls_le _ _ _ _ _

theorem loopPhaseResult_ceiling (inp : RunInput) (plan : Plan)
    (h : (loopPhaseResult inp plan).exitKind = .loopCeiling) :
    ∃ pre fs c d ch ca,
      (loopPhaseResult inp plan).outcome = .completed fs
    ∧ (loopPhaseResult inp plan).events
        = pre ++ [.snapshot (loopPhaseResult inp plan).finalHtml,
            .msgStatus "completed", .assistantMsg fs "chat",
            .editHistory c d ch ca true] := by
  cases hE : (toolLoop inp.searchFmt inp.oracle 15 1 (initialLoopCtx inp plan)).2.2 with
  | terminal out => simp [loopPhaseResult, hE] at h
  | noToolCalls => simp [loopPhaseResult, hE] at h
  | ceiling =>
    refine ⟨(toolLoop inp.searchFmt inp.oracle 15 1 (initialLoopCtx inp plan)).2.1.events,
      (toolLoop inp.searchFmt inp.oracle 15 1 (initialLoopCtx inp plan)).2.1.final_summary,
      (toolLoop inp.searchFmt inp.oracle 15 1 (initialLoopCtx inp plan)).2.1.plan.complexity.getD "simple",
      (toolLoop inp.searchFmt inp.oracle 15 1 (initialLoopCtx inp plan)).2.1.plan.decision.getD "surgical_edit",
      (toolLoop inp.searchFmt inp.oracle 15 1 (initialLoopCtx inp plan)).2.1.changes_log,
      (toolLoop inp.searchFmt inp.oracle 15 1 (initialLoopCtx inp plan)).2.1.clarification_asked,
      ?_, ?_⟩
    · simp [loopPhaseResult, hE]
    · simp [loopPhaseResult, hE, wrapUpEvents]

theorem edit_agent_ceiling_no_history_row :
    (run_edit_agent c4editInput).exitKind = .loopCeiling
  ∧ (run_edit_agent c4editInput).loopModelCalls = 10
  ∧ ∀ c d ch ca su, Event.editHistory c d ch ca su ∉ (run_edit_agent c4editInput).events := by
  have hev : (run_edit_agent c4editInput).events
      = [.msgStatus "processing", .snapshot "<h1>a</h1>", .msgStatus "completed",
         .assistantMsg "Done." "chat"] := by decide
  refine ⟨by decide, by decide, ?_⟩
  intro c d ch ca su
  rw [hev]
  simp

/-- C4 as amended: the tool loop makes at most 15 model calls in the full
orchestrator and at most 10 in the single-tool edit agent; a run that
exhausts the ceiling without a terminal tool ends with the accumulated
document snapshotted, the message marked completed, and outcome `completed`
— never `error`; the orchestrator additionally records an edit-history row
with success=true, while the edit agent records no edit-history row. -/
theorem tool_loop_ceiling_spec :
    (∀ inp : RunInput,
        (run_orchestrator inp).loopModelCalls ≤ 15
      ∧ ((run_orchestrator inp).exitKind = .loopCeiling →
          ∃ pre fs c d ch ca,
              (run_orchestrator inp).outcome = .completed fs
            ∧ (run_orchestrator inp).events
                = pre ++ [.snapshot (run_orchestrator inp).finalHtml,
                    .msgStatus "completed", .assistantMsg fs "chat",
                    .editHistory c d ch ca true]
            ∧ (run_orchestrator inp).outcome ≠ .error))
  ∧ (∀ einp : EditInput,
        (run_edit_agent einp).loopModelCalls ≤ 10
      ∧ ((run_edit_agent einp).exitKind = .loopCeiling →
          ∃ pre fs,
              (run_edit_agent einp).outcome = .completed fs
            ∧ (run_edit_agent einp).events
                = pre ++ [.snapshot (run_edit_agent einp).finalHtml,
                    .msgStatus "completed", .assistantMsg fs "chat"]
            ∧ (run_edit_agent einp).outcome ≠ .error)) := by
  constructor
  · intro inp
    simp only [run_orchestrator]
    cases hpv : _parse_plan inp.jsonLoads inp.planRaw with
    | scalar =>
      refine ⟨by simp [fatalResult], ?_⟩
      intro h
      simp [fatalResult] at h
    | dict p0 =>
      by_cases hsc : shortCircuitCond
          (planAfterOverride p0 (_is_boilerplate inp.page.html_content))
          (_is_boilerplate inp.page.html_content) = true
      · refine ⟨by simp [hsc, shortCircuitResult], ?_⟩
        intro h
        simp [hsc, shortCircuitResult] at h
      · have hsc' : shortCircuitCond
            (planAfterOverride p0 (_is_boilerplate inp.page.html_content))
            (_is_boilerplate inp.page.html_content) = false := by
          rwa [Bool.not_eq_true] at hsc
        simp only [hsc', Bool.false_eq_true, if_false]
        refine ⟨loopPhaseResult_calls_le inp _, ?_⟩
        intro h
        obtain ⟨pre, fs, c, d, ch, ca, h1, h2⟩ := loopPhaseResult_ceiling inp _ h
        exact ⟨pre, fs, c, d, ch, ca, h1, h2, by rw [h1]; simp⟩
  · intro einp
    constructor
    · unfold run_edit_agent
      cases hE : (editToolLoop einp.oracle 10 1
          { current_html := einp.page_html, final_summary := "Done.",
            events := [.msgStatus "processing"], fedBack := [] }).2.2 with
      | terminal out =>
        simp only [hE]
        exact editToolLoop_calls_le _ _ _ _
      | noToolCalls =>
        simp only [hE]
        exact editToolLoop_calls_le _ _ _ _
      | ceiling =>
        simp only [hE]
        exact editToolLoop_calls_le _ _ _ _
    · intro h
      unfold run_edit_agent at h ⊢
      cases hE : (editToolLoop einp.oracle 10 1
          { current_html := einp.page_html, final_summary := "Done.",
            events := [.msgStatus "processing"], fedBack := [] }).2.2 with
      | terminal out => simp [hE] at h
      | noToolCalls => simp [hE] at h
      | ceiling =>
        refine ⟨(editToolLoop einp.oracle 10 1
            { current_html := einp.page_html, final_summary := "Done.",
              events := [.msgStatus "processing"], fedBack := [] }).2.1.events,
          (editToolLoop einp.oracle 10 1
            { current_html := einp.page_html, final_summary := "Done.",
              events := [.msgStatus "processing"], fedBack := [] }).2.1.final_summary,
          ?_, ?_, ?_⟩
        · simp [hE]
        · simp [hE]
        · simp [hE]

/-- C4 amended-claim witness: a ceiling-exhausting orchestrator run and a
ceiling-exhausting edit-agent run. -/
theorem tool_loop_ceiling_spec_witness :
    (∃ pre fs c d ch ca,
        (run_orchestrator ceilInput).outcome = .completed fs
      ∧ (run_orchestrator ceilInput).events
          = pre ++ [.snapshot (run_orchestrator ceilInput).finalHtml,
              .msgStatus "completed", .assistantMsg fs "chat",
              .editHistory c d ch ca true]
      ∧ (run_orchestrator ceilInput).outcome ≠ .error)
  ∧ (∃ pre fs,
        (run_edit_agent c4editInput).outcome = .completed fs
      ∧ (run_edit_agent c4editInput).events
          = pre ++ [.snapshot (run_edit_agent c4editInput).finalHtml,
              .msgStatus "completed", .assistantMsg fs "chat"]
      ∧ (run_edit_agent c4editInput).outcome ≠ .error) :=
  ⟨(tool_loop_ceiling_spec.1 ceilInput).2 (by decide),
   (tool_loop_ceiling_spec.2 c4editInput).2 (by decide)⟩

end Hyphertext
